import Mathlib

/-!
Verification development for the SIPS frame-processing core.

Pixel samples are modelled as rationals (`ℚ`); the numpy elementwise
operations of the source are pointwise on pixels, so single-pixel and
pixel-function models are faithful for the elementwise properties below.
2D frames are modelled either as total pixel functions `ℕ → ℕ → ℚ`
(for pointwise arithmetic claims) or as finite pixel lists (where the
actual min/max of an image matters).
-/

namespace SIPS

/-! ## Nielsen algorithm (src/source/nielsen_algorithm.py)

A pixel's trace through the stack is `stack : ℕ → ℚ` (frame index ↦ value);
every operation of the module is elementwise. -/

/-- `nielsen_sat_function`: crops the intensity range to standard 8-bit
integers, `np.where(x < 0, 0, np.where(x > 255, 255, x))`. -/
def nielsen_sat_function (x : ℚ) : ℚ :=
  if x < 0 then 0 else if x > 255 then 255 else x

/-- `calculate_difference`: saturated difference of two frames, pointwise. -/
def calculate_difference (base_image subtracted_image : ℚ) : ℚ :=
  nielsen_sat_function (base_image - subtracted_image)

/-- `calculate_ratio`: `np.where(divided == 0, 1, base / divided)` then
`nielsen_sat_function (q * ratio)`, pointwise. -/
def calculate_ratio (base_image divided_image q : ℚ) : ℚ :=
  nielsen_sat_function (q * (if divided_image = 0 then 1 else base_image / divided_image))

/-- `sum_differences`: the python loop is
`for i in range(start_index+1, start_index+frame_count+1): sum += calculate_difference(stack[:,:,start_index], stack[:,:,start_index+i])`,
so iteration `j` (0-based) reads frame `start_index + (start_index+1+j)`. -/
def sum_differences (image_stack : ℕ → ℚ) (start_index frame_count : ℕ) : ℚ :=
  ((List.range frame_count).map (fun j =>
    calculate_difference (image_stack start_index)
      (image_stack (start_index + (start_index + 1 + j))))).sum

/-- `sum_ratios`: same loop shape as `sum_differences`, accumulating
`calculate_ratio`. -/
def sum_ratios (image_stack : ℕ → ℚ) (start_index frame_count : ℕ) (q : ℚ) : ℚ :=
  ((List.range frame_count).map (fun j =>
    calculate_ratio (image_stack start_index)
      (image_stack (start_index + (start_index + 1 + j))) q)).sum

/-- `nielsen_linear_comb`: `d * sum_differences + sum_ratios`. -/
def nielsen_linear_comb (image_stack : ℕ → ℚ) (start_index frame_count : ℕ) (d q : ℚ) : ℚ :=
  d * sum_differences image_stack start_index frame_count
    + sum_ratios image_stack start_index frame_count q

/-- What the spec sentence for `sumDifferences` states: sum over offsets
1..order of `saturate(stack[i] - stack[i+offset])` (for comparison with
the source's `sum_differences`). -/
def spec_sum_differences (image_stack : ℕ → ℚ) (start_index frame_count : ℕ) : ℚ :=
  ((List.range frame_count).map (fun j =>
    calculate_difference (image_stack start_index)
      (image_stack (start_index + (1 + j))))).sum

/-! ## Flat/dark correction and ratio modes (src/gui/sips_gui.py) -/

/-- The corrected pixel of `apply_flat_dark_correction` (line 1300):
`np.where(dark_corrected_flat == 0, 1, dark_corrected_image / dark_corrected_flat)`
with `dark_corrected_flat = flat - dark` and `dark_corrected_image = f - dark`. -/
def flat_dark_corrected_pixel (flat dark f : ℚ) : ℚ :=
  if flat - dark = 0 then 1 else (f - dark) / (flat - dark)

/-- The ratio pixel of `apply_pre_processing` modes 3 and 4 (lines 888, 893):
`np.where(b == 0, np.where(a == 0, 1, 1), a / b)`. -/
def ratio_pixel (a b : ℚ) : ℚ :=
  if b = 0 then (if a = 0 then 1 else 1) else a / b

/-! ## Basic bounds for the saturation function -/

theorem nielsen_sat_nonneg (x : ℚ) : 0 ≤ nielsen_sat_function x := by
  unfold nielsen_sat_function
  split
  · exact le_refl 0
  · split
    · norm_num
    · linarith [not_lt.mp (by assumption : ¬ x < 0)]

theorem nielsen_sat_le (x : ℚ) : nielsen_sat_function x ≤ 255 := by
  unfold nielsen_sat_function
  split
  · norm_num
  · split
    · exact le_refl 255
    · linarith [not_lt.mp (by assumption : ¬ x > 255)]

/-- Generic bound for sums of per-term saturated lists. -/
theorem sat_sum_bounds (l : List ℚ) (h : ∀ x ∈ l, 0 ≤ x ∧ x ≤ 255) :
    0 ≤ l.sum ∧ l.sum ≤ 255 * l.length := by
  constructor
  · exact List.sum_nonneg fun x hx => (h x hx).1
  · calc l.sum ≤ l.length • (255 : ℚ) :=
        List.sum_le_card_nsmul l 255 fun x hx => (h x hx).2
      _ = 255 * l.length := by rw [nsmul_eq_mul]; ring

/-- C1: in flat/dark correction, wherever `flat - dark = 0` the corrected
value is exactly 1 regardless of the numerator, and in the RatioTotal /
RatioNeighbour modes wherever the divisor pixel is 0 the result is exactly 1
regardless of the numerator; both operations are total functions on ℚ, so
division by zero never raises and no NaN/Inf is propagated. -/
theorem zero_divisor_substitution_policy :
    (∀ flat dark f : ℚ, flat - dark = 0 → flat_dark_corrected_pixel flat dark f = 1)
    ∧ (∀ a : ℚ, ratio_pixel a 0 = 1) := by
  constructor
  · intro flat dark f h
    unfold flat_dark_corrected_pixel
    rw [if_pos h]
  · intro a
    unfold ratio_pixel
    by_cases h : a = 0 <;> simp [h]

/-- Witness for C1 at concrete pixels. -/
theorem zero_divisor_substitution_policy_witness :
    (5 : ℚ) - 5 = 0 ∧ flat_dark_corrected_pixel 5 5 3 = 1 ∧ ratio_pixel 7 0 = 1 :=
  ⟨by norm_num, zero_divisor_substitution_policy.1 5 5 3 (by norm_num),
    zero_divisor_substitution_policy.2 7⟩

/-- A stack whose base frame is 255 and all later frames are 1. -/
def stack_ex : ℕ → ℚ := fun n => if n = 0 then 255 else 1

/-- C2 counterexample: with two accumulated terms (order 2) both
`sum_differences` and `sum_ratios` (pre-weighting, q = 1) exceed 255, so they
are not elementwise within [0, 255]. -/
theorem nielsen_sums_exceed_255 :
    255 < sum_differences stack_ex 0 2 ∧ 255 < sum_ratios stack_ex 0 2 1 := by
  constructor
  · show (255 : ℚ) < sum_differences stack_ex 0 2
    norm_num [sum_differences, calculate_difference, nielsen_sat_function, stack_ex,
      List.range_succ]
  · show (255 : ℚ) < sum_ratios stack_ex 0 2 1
    norm_num [sum_ratios, calculate_ratio, nielsen_sat_function, stack_ex,
      List.range_succ]

/-- C2 (amended): every term accumulated by `sum_differences` and
`sum_ratios` is saturated into [0, 255], so the sums (pre-weighting) are
elementwise within [0, 255 * order]; the bound [0, 255] holds per term, not
for the accumulated sums. -/
theorem nielsen_sums_bounds (image_stack : ℕ → ℚ) (start_index frame_count : ℕ) (q : ℚ) :
    0 ≤ sum_differences image_stack start_index frame_count
    ∧ sum_differences image_stack start_index frame_count ≤ 255 * frame_count
    ∧ 0 ≤ sum_ratios image_stack start_index frame_count q
    ∧ sum_ratios image_stack start_index frame_count q ≤ 255 * frame_count := by
  have hd := sat_sum_bounds
    ((List.range frame_count).map (fun j =>
      calculate_difference (image_stack start_index)
        (image_stack (start_index + (start_index + 1 + j)))))
    (by
      intro x hx
      obtain ⟨j, _, rfl⟩ := List.mem_map.mp hx
      exact ⟨nielsen_sat_nonneg _, nielsen_sat_le _⟩)
  have hr := sat_sum_bounds
    ((List.range frame_count).map (fun j =>
      calculate_ratio (image_stack start_index)
        (image_stack (start_index + (start_index + 1 + j))) q))
    (by
      intro x hx
      obtain ⟨j, _, rfl⟩ := List.mem_map.mp hx
      exact ⟨nielsen_sat_nonneg _, nielsen_sat_le _⟩)
  simp only [List.length_map, List.length_range] at hd hr
  exact ⟨hd.1, hd.2, hr.1, hr.2⟩

/-- Stack with frames 50, 50, 10, 50: at base index 1, order 1, the spec's
formula reads frame 2 but the source reads frame 3. -/
def stack_c3 : ℕ → ℚ := fun n => if n = 2 then 10 else 50

/-- C3: at base index 1 and order 1 the source's `sum_differences` reads
frame `start_index + (start_index + 1)` = 3 instead of frame 2, yielding
`saturate(50 - 50) = 0` where the claimed formula (embodied by
`spec_sum_differences`) yields `saturate(50 - 10) = 40`; the claimed
formula and the source agree at base index 0, where the documented
scenario (window [100, 150], order 1 ⇒ 0) holds. -/
theorem sum_differences_start_index_divergence :
    sum_differences stack_c3 1 1 = 0
    ∧ spec_sum_differences stack_c3 1 1 = 40
    ∧ sum_differences (fun n => if n = 0 then 100 else 150) 0 1 = 0 := by
  refine ⟨?_, ?_, ?_⟩
  · norm_num [sum_differences, calculate_difference, nielsen_sat_function, stack_c3,
      List.range_succ]
  · norm_num [spec_sum_differences, calculate_difference, nielsen_sat_function, stack_c3,
      List.range_succ]
  · norm_num [sum_differences, calculate_difference, nielsen_sat_function,
      List.range_succ]

/-! ## Frame selection state (src/gui/sips_gui.py, lines 904-920 and 1051-1065) -/

/-- GUI state relevant to mode/order selection and the image-selection scale. -/
structure ViewState where
  total_frames : ℤ
  pre_processing_value : ℤ
  neighbour_order_value : ℤ
  current_image_number : ℤ
  current_image_number_default : ℤ
  number_of_images : ℤ

/-- The branch structure of `update_image_selection_scale` (lines 904-917):
modes 2, 4, 5 subtract the neighbour order from the frame count, every other
mode value (1, 3, and the `else` branch) keeps it. -/
def effective_count (mode order total : ℤ) : ℤ :=
  if mode = 1 then total
  else if mode = 2 then total - order
  else if mode = 3 then total
  else if mode = 4 then total - order
  else if mode = 5 then total - order
  else total

/-- `update_image_selection_scale`: recompute `number_of_images` from the
current mode and order. -/
def update_image_selection_scale (st : ViewState) : ViewState :=
  { st with number_of_images :=
      effective_count st.pre_processing_value st.neighbour_order_value st.total_frames }

/-- `select_pre_processing_mode` (lines 1051-1057): set the mode, recompute
the scale, and reset the current index to the default when it is no longer
addressable (`current_image_number >= number_of_images`). -/
def select_pre_processing_mode (st : ViewState) (e : ℤ) : ViewState :=
  let st1 := update_image_selection_scale { st with pre_processing_value := e }
  if st1.current_image_number ≥ st1.number_of_images
  then { st1 with current_image_number := st1.current_image_number_default }
  else st1

/-- `select_neighbour_order` (lines 1059-1065): set the order, recompute the
scale, and reset the current index the same way. -/
def select_neighbour_order (st : ViewState) (e : ℤ) : ViewState :=
  let st1 := update_image_selection_scale { st with neighbour_order_value := e }
  if st1.current_image_number ≥ st1.number_of_images
  then { st1 with current_image_number := st1.current_image_number_default }
  else st1

/-- C5: the effective addressable count is `N` for Standard (mode 0, the
`else` branch), DeltaTotal (1) and RatioTotal (3), and `N - k` for
DeltaNeighbour (2), RatioNeighbour (4) and NielsenCombo (5); and after a
mode or order change, a previously current (nonnegative) index that falls
outside `[0, effective_count - 1]` is reset to the default index, while an
index still in range is kept. -/
theorem effective_count_and_index_reset :
    (∀ k N : ℤ, effective_count 0 k N = N ∧ effective_count 1 k N = N
      ∧ effective_count 3 k N = N ∧ effective_count 2 k N = N - k
      ∧ effective_count 4 k N = N - k ∧ effective_count 5 k N = N - k)
    ∧ (∀ (st : ViewState) (e : ℤ), 0 ≤ st.current_image_number →
        ((select_pre_processing_mode st e).number_of_images - 1 < st.current_image_number →
          (select_pre_processing_mode st e).current_image_number
            = st.current_image_number_default)
        ∧ (st.current_image_number ≤ (select_pre_processing_mode st e).number_of_images - 1 →
          (select_pre_processing_mode st e).current_image_number
            = st.current_image_number))
    ∧ (∀ (st : ViewState) (e : ℤ), 0 ≤ st.current_image_number →
        ((select_neighbour_order st e).number_of_images - 1 < st.current_image_number →
          (select_neighbour_order st e).current_image_number
            = st.current_image_number_default)
        ∧ (st.current_image_number ≤ (select_neighbour_order st e).number_of_images - 1 →
          (select_neighbour_order st e).current_image_number
            = st.current_image_number)) := by
  refine ⟨?_, ?_, ?_⟩
  · intro k N
    refine ⟨?_, ?_, ?_, ?_, ?_, ?_⟩ <;> simp [effective_count]
  · intro st e _
    unfold select_pre_processing_mode update_image_selection_scale
    dsimp only
    by_cases hc :
        st.current_image_number ≥ effective_count e st.neighbour_order_value st.total_frames
    · rw [if_pos hc]
      dsimp only
      exact ⟨fun _ => rfl, fun hin => by omega⟩
    · rw [if_neg hc]
      dsimp only
      exact ⟨fun hout => by omega, fun _ => rfl⟩
  · intro st e _
    unfold select_neighbour_order update_image_selection_scale
    dsimp only
    by_cases hc :
        st.current_image_number ≥ effective_count st.pre_processing_value e st.total_frames
    · rw [if_pos hc]
      dsimp only
      exact ⟨fun _ => rfl, fun hin => by omega⟩
    · rw [if_neg hc]
      dsimp only
      exact ⟨fun hout => by omega, fun _ => rfl⟩

/-- Witness for C5: a mode switch from Standard to DeltaNeighbour (order 2)
on a 10-frame series resets index 9 to the default, and keeps index 3. -/
theorem effective_count_and_index_reset_witness :
    (0 : ℤ) ≤ 9
    ∧ (select_pre_processing_mode ⟨10, 0, 2, 9, 0, 10⟩ 2).number_of_images - 1 < 9
    ∧ (select_pre_processing_mode ⟨10, 0, 2, 9, 0, 10⟩ 2).current_image_number = 0
    ∧ (select_neighbour_order ⟨10, 2, 1, 3, 0, 9⟩ 2).current_image_number = 3 :=
  ⟨by norm_num, by norm_num [select_pre_processing_mode, update_image_selection_scale,
      effective_count],
    (effective_count_and_index_reset.2.1 ⟨10, 0, 2, 9, 0, 10⟩ 2 (by norm_num)).1
      (by norm_num [select_pre_processing_mode, update_image_selection_scale,
        effective_count]),
    (effective_count_and_index_reset.2.2 ⟨10, 2, 1, 3, 0, 9⟩ 2 (by norm_num)).2
      (by norm_num [select_neighbour_order, update_image_selection_scale,
        effective_count])⟩

/-! ## Export-range validation (src/gui/sips_gui.py, lines 1112-1120) -/

/-- `verify_export_range`: the entry texts parse to `some (save_from, save_to)`
or fail (`none`, the `ValueError` of `int(...)`); the parsed pair is kept only
when `0 <= save_from < save_to` and `save_from <= save_to < number_of_images`
both hold, otherwise (including a parse failure) the full range
`(0, number_of_images - 1)` is substituted. -/
def verify_export_range (entries : Option (ℤ × ℤ)) (number_of_images : ℤ) : ℤ × ℤ :=
  match entries with
  | none => (0, number_of_images - 1)
  | some (save_from, save_to) =>
      if ¬(0 ≤ save_from ∧ save_from < save_to)
          ∨ ¬(save_from ≤ save_to ∧ save_to < number_of_images)
      then (0, number_of_images - 1)
      else (save_from, save_to)

/-- C6 counterexample: the single-frame range [2, 2] with 5 addressable
frames is valid per the claim (0 ≤ 2 ≤ 2 ≤ 4) but is not used unchanged —
the full range [0, 4] is substituted because the source requires
`save_from < save_to` strictly. -/
theorem verify_export_range_rejects_singleton :
    ((0 : ℤ) ≤ 2 ∧ (2 : ℤ) ≤ 2 ∧ (2 : ℤ) ≤ 5 - 1)
    ∧ verify_export_range (some (2, 2)) 5 = (0, 4)
    ∧ verify_export_range (some (2, 2)) 5 ≠ (2, 2) := by
  refine ⟨by norm_num, ?_, ?_⟩ <;> simp [verify_export_range]

/-- C6 (amended): a requested range `[start, end]` is used unchanged exactly
when `0 ≤ start < end ≤ effectiveCount - 1` (strictly increasing — a
single-frame range `start = end` is rejected); any other pair, and any
non-numeric entry, is replaced by the full valid range
`[0, effectiveCount - 1]` instead of the operation failing. -/
theorem verify_export_range_spec (save_from save_to number_of_images : ℤ) :
    (0 ≤ save_from ∧ save_from < save_to ∧ save_to ≤ number_of_images - 1 →
      verify_export_range (some (save_from, save_to)) number_of_images
        = (save_from, save_to))
    ∧ (¬(0 ≤ save_from ∧ save_from < save_to ∧ save_to ≤ number_of_images - 1) →
      verify_export_range (some (save_from, save_to)) number_of_images
        = (0, number_of_images - 1))
    ∧ verify_export_range none number_of_images = (0, number_of_images - 1) := by
  simp only [verify_export_range]
  refine ⟨fun h => ?_, fun h => ?_, trivial⟩
  · rw [if_neg (by omega)]
  · rw [if_pos (by omega)]

/-- Witness for C6 at concrete ranges. -/
theorem verify_export_range_spec_witness :
    ((0 : ℤ) ≤ 1 ∧ (1 : ℤ) < 3 ∧ (3 : ℤ) ≤ 10 - 1)
    ∧ verify_export_range (some (1, 3)) 10 = (1, 3)
    ∧ verify_export_range (some (7, 2)) 10 = (0, 9) :=
  ⟨by norm_num, (verify_export_range_spec 1 3 10).1 (by norm_num),
    (verify_export_range_spec 7 2 10).2.1 (by norm_num)⟩

/-! ## Bulk export loops (src/gui/sips_gui.py, lines 1132-1194) -/

/-- Python's `range(a, b)` over integers, as the list of visited values. -/
def pyRange (a b : ℤ) : List ℤ :=
  (List.range (b - a).toNat).map (fun j => a + (j : ℤ))

/-- Frame indices processed by `export_images` (line 1135):
`range(save_from, save_to + 1)`. -/
def export_images_frames (save_from save_to : ℤ) : List ℤ :=
  pyRange save_from (save_to + 1)

/-- Frame indices processed by `export_video` (line 1163):
`range(save_from, save_to + 1)`. -/
def export_video_frames (save_from save_to : ℤ) : List ℤ :=
  pyRange save_from (save_to + 1)

/-- Frame indices processed by `export_np_binary` (line 1186):
`range(save_from, save_to)` — the end index is excluded and the output
buffer has only `save_to - save_from` slots. -/
def export_np_binary_frames (save_from save_to : ℤ) : List ℤ :=
  pyRange save_from save_to

/-- C7: for the validated range [0, 2], the image and video exports process
frames 0, 1, 2 but the packed-binary export processes only frames 0, 1 —
the final frame of the inclusive range is dropped, so the three sinks do
not receive the same processed sequence. -/
theorem export_frame_sequences_differ :
    export_images_frames 0 2 = [0, 1, 2]
    ∧ export_video_frames 0 2 = [0, 1, 2]
    ∧ export_np_binary_frames 0 2 = [0, 1]
    ∧ export_np_binary_frames 0 2 ≠ export_images_frames 0 2 := by
  refine ⟨?_, ?_, ?_, ?_⟩ <;>
    simp [export_images_frames, export_video_frames, export_np_binary_frames, pyRange,
      List.range_succ]

/-! ## Series loader range clamping (src/source/series_handling_functions.py) -/

/-- The `(start, end)` frame range actually used by `load_from_images`
(lines 86-109): only the end is clamped
(`if end_image >= len(file_names): end_image = len(file_names) - 1`);
the start is used as given. -/
def load_from_images_range (num_files : ℤ) (start_image end_image : ℤ) : ℤ × ℤ :=
  (start_image, if end_image ≥ num_files then num_files - 1 else end_image)

/-- The `(start, end)` frame range actually used by `load_from_file` for the
proprietary container (lines 136-139): the end is clamped to
`total_image_count - 1`, then the start is clamped to the clamped end. -/
def load_from_file_range (total_image_count : ℤ) (start_image end_image : ℤ) : ℤ × ℤ :=
  let e := if end_image > total_image_count - 1 then total_image_count - 1 else end_image
  (if start_image > e then e else start_image, e)

/-- C8 counterexample: for an image directory of 3 files and the requested
range [5, 10], the end is clamped to 2 but the start stays 5, exceeding the
clamped end — the claimed start-clamp does not exist in `load_from_images`. -/
theorem load_from_images_start_unclamped :
    load_from_images_range 3 5 10 = (5, 2)
    ∧ (load_from_images_range 3 5 10).2 < (load_from_images_range 3 5 10).1 := by
  constructor <;> simp [load_from_images_range]

/-- C8 (amended): the proprietary-container loader clamps the end to the
source's last frame index and the start to the clamped end; the
image-directory loader clamps only the end to the last file index — its
start is used unclamped and may exceed the clamped end. -/
theorem loader_range_clamping (total num_files start_image end_image : ℤ) :
    (load_from_file_range total start_image end_image).2 ≤ total - 1
    ∧ (load_from_file_range total start_image end_image).1
        ≤ (load_from_file_range total start_image end_image).2
    ∧ (load_from_images_range num_files start_image end_image).2 ≤ num_files - 1
    ∧ (load_from_images_range num_files start_image end_image).1 = start_image := by
  unfold load_from_file_range load_from_images_range
  dsimp only
  refine ⟨?_, ?_, ?_, rfl⟩ <;> split <;> omega

/-! ## Range Converter (src/source/series_handling_functions.py, lines 225-246)

An image is its finite list of pixel samples (the affine map and the cast are
elementwise, so the 2D/3D shape is carried by the list layout); `npMin` /
`npMax` are `image.min()` / `image.max()`, and `cast` is the elementwise
`astype(target_type)` conversion of the (external) numpy dtype. -/

/-- Minimum pixel value of a (nonempty) image, `image.min()`. -/
def npMin : List ℚ → ℚ
  | [] => 0
  | x :: xs => xs.foldl min x

/-- Maximum pixel value of a (nonempty) image, `image.max()`. -/
def npMax : List ℚ → ℚ
  | [] => 0
  | x :: xs => xs.foldl max x

/-- `convert_image`: resolve `image_min` / `image_max` to the image's actual
min/max when omitted; if they coincide return `np.zeros(image.shape, dtype=target_type)`;
otherwise apply `a * x + b` with `a = (target_type_max - target_type_min) / (image_max - image_min)`
and `b = target_type_max - a * image_max`, then convert each result with
`astype(target_type)` (the `cast` parameter). -/
def convert_image (image : List ℚ) (target_type_min target_type_max : ℚ)
    (cast : ℚ → ℚ) (image_min image_max : Option ℚ := none) : List ℚ :=
  let imin := image_min.getD (npMin image)
  let imax := image_max.getD (npMax image)
  if imin = imax then image.map (fun _ => 0)
  else
    let a := (target_type_max - target_type_min) / (imax - imin)
    let b := target_type_max - a * imax
    image.map (fun x => cast (a * x + b))

theorem foldl_min_const (c : ℚ) :
    ∀ (xs : List ℚ) (x : ℚ), x = c → (∀ y ∈ xs, y = c) → xs.foldl min x = c := by
  intro xs
  induction xs with
  | nil => intro x hx _; simpa using hx
  | cons z zs ih =>
      intro x hx hall
      have hz : z = c := hall z (by simp)
      simp only [List.foldl_cons]
      exact ih (min x z) (by rw [hx, hz, min_self]) (fun y hy => hall y (by simp [hy]))

theorem foldl_max_const (c : ℚ) :
    ∀ (xs : List ℚ) (x : ℚ), x = c → (∀ y ∈ xs, y = c) → xs.foldl max x = c := by
  intro xs
  induction xs with
  | nil => intro x hx _; simpa using hx
  | cons z zs ih =>
      intro x hx hall
      have hz : z = c := hall z (by simp)
      simp only [List.foldl_cons]
      exact ih (max x z) (by rw [hx, hz, max_self]) (fun y hy => hall y (by simp [hy]))

/-- C4: with min/max computed from the image, a constant image (any constant
`c`, any target type) converts to the all-zero buffer of the same length —
the degenerate branch never divides; a non-degenerate image converts by the
affine map `a * x + b` (with the claimed `a` and `b` and a provably nonzero
divisor `inMax - inMin`) followed by the elementwise target-type cast, and
the input image itself is untouched (the result is a fresh `map`). -/
theorem convert_image_contract (tmin tmax : ℚ) (cast : ℚ → ℚ) :
    (∀ (image : List ℚ) (c : ℚ), (∀ x ∈ image, x = c) →
      convert_image image tmin tmax cast = image.map (fun _ => 0))
    ∧ (∀ image : List ℚ, npMin image ≠ npMax image →
      npMax image - npMin image ≠ 0
      ∧ convert_image image tmin tmax cast
          = image.map (fun x =>
              cast ((tmax - tmin) / (npMax image - npMin image) * x
                + (tmax - (tmax - tmin) / (npMax image - npMin image) * npMax image)))) := by
  constructor
  · intro image c hconst
    have hmin : npMin image = npMax image := by
      cases image with
      | nil => rfl
      | cons x xs =>
          have hx : x = c := hconst x (by simp)
          have hxs : ∀ y ∈ xs, y = c := fun y hy => hconst y (by simp [hy])
          simp only [npMin, npMax]
          rw [foldl_min_const c xs x hx hxs, foldl_max_const c xs x hx hxs]
    unfold convert_image
    simp only [Option.getD_none]
    rw [if_pos hmin]
  · intro image hne
    refine ⟨sub_ne_zero.mpr (Ne.symm hne), ?_⟩
    unfold convert_image
    simp only [Option.getD_none]
    rw [if_neg hne]

/-- Witness for C4: the constant image [3, 3, 3] converts to zeros and the
image [0, 2] converts by the affine map onto the 8-bit range. -/
theorem convert_image_contract_witness :
    convert_image [3, 3, 3] 0 255 id = [0, 0, 0]
    ∧ npMin [0, 2] ≠ npMax [0, 2]
    ∧ convert_image [(0 : ℚ), 2] 0 255 id = [0, 255] := by
  refine ⟨?_, ?_, ?_⟩
  · have h := (convert_image_contract 0 255 id).1 [3, 3, 3] 3 (by
      intro x hx
      simp only [List.mem_cons, List.not_mem_nil, or_false] at hx
      rcases hx with h | h | h <;> exact h)
    simpa using h
  · show npMin [0, 2] ≠ npMax [0, 2]
    norm_num [npMin, npMax]
  · have h := ((convert_image_contract 0 255 id).2 [(0 : ℚ), 2] (by
      norm_num [npMin, npMax])).2
    rw [h]
    norm_num [npMin, npMax]

/-! ## Flat/dark correction guard (src/gui/sips_gui.py, lines 1282-1304) -/

/-- A 2D reference frame with its own shape. -/
structure Img2 where
  h : ℕ
  w : ℕ
  pix : ℕ → ℕ → ℚ

/-- The loaded series: one `(height, width)` shape shared by all frames. -/
structure Series where
  h : ℕ
  w : ℕ
  frames : List (ℕ → ℕ → ℚ)

/-- Outcomes of `apply_flat_dark_correction`: the status texts it writes to
the import label, plus the uncaught numpy `ValueError` raised when the dark
does not broadcast against the series-shaped flat (line 1296) or when the
broadcast result cannot be assigned back into a frame slot (line 1301). -/
inductive FDMessage
  | noFlatDark
  | mustCorrectBeforeCropping
  | completed
  | valueError
deriving DecidableEq

/-- The outcome of `apply_flat_dark_correction`: the (possibly rewritten)
series buffer and the status message. -/
structure FDResult where
  series : Series
  message : FDMessage

/-- A numpy broadcast read from a 2D array: a size-1 axis is stretched, so
its index is read as 0. -/
def broadcast_pix (a : Img2) (r c : ℕ) : ℚ :=
  a.pix (if a.h = 1 then 0 else r) (if a.w = 1 then 0 else c)

/-- One frame of the correction loop (lines 1299-1301), elementwise in the
corrected pixel; the flat has the series' shape here, while the dark is
read with numpy broadcasting (size-1 axes at index 0). -/
def flat_dark_correct_frame (flat dark : Img2) (f : ℕ → ℕ → ℚ) : ℕ → ℕ → ℚ :=
  fun r c => flat_dark_corrected_pixel (flat.pix r c) (broadcast_pix dark r c) (f r c)

/-- `apply_flat_dark_correction`: missing references abort with an error
message; then only the FLAT's `(height, width)` is compared against the
series (line 1290) — on mismatch the function reports the must-correct-
before-cropping error and leaves the buffer untouched. The dark's shape is
never compared: when every dark axis equals the series extent or is 1,
numpy broadcasting applies and every frame is rewritten with the corrected
values; for any other dark shape an uncaught `ValueError` aborts the
correction — either `self.flat - self.dark` (line 1296) fails to broadcast,
or (when a series axis is 1 and the dark's is larger) the broadcast result
cannot be assigned back into the frame slot (line 1301) — in both cases
before any frame has been written. -/
def apply_flat_dark_correction (series : Series) (flat dark : Option Img2) : FDResult :=
  match flat, dark with
  | none, _ => ⟨series, .noFlatDark⟩
  | some _, none => ⟨series, .noFlatDark⟩
  | some fl, some dk =>
      if fl.h ≠ series.h ∨ fl.w ≠ series.w then ⟨series, .mustCorrectBeforeCropping⟩
      else if (dk.h = series.h ∨ dk.h = 1) ∧ (dk.w = series.w ∨ dk.w = 1) then
        ⟨⟨series.h, series.w, series.frames.map (flat_dark_correct_frame fl dk)⟩,
          .completed⟩
      else ⟨series, .valueError⟩

/-- A 2×2 single-frame series with a matching flat but a 1×1 dark. -/
def series_c9 : Series := ⟨2, 2, [fun _ _ => 4]⟩

def flat_c9 : Img2 := ⟨2, 2, fun _ _ => 2⟩

def dark_c9 : Img2 := ⟨1, 1, fun _ _ => 0⟩

/-- C9 counterexample: with a matching flat and a dark whose shape disagrees
with the series, the correction proceeds to completion — no ShapeMismatch
failure is reported, because the source never compares the dark's shape. -/
theorem dark_shape_mismatch_not_detected :
    (dark_c9.h ≠ series_c9.h ∧ dark_c9.w ≠ series_c9.w)
    ∧ (apply_flat_dark_correction series_c9 (some flat_c9) (some dark_c9)).message
        = FDMessage.completed
    ∧ (apply_flat_dark_correction series_c9 (some flat_c9) (some dark_c9)).message
        ≠ FDMessage.mustCorrectBeforeCropping := by
  refine ⟨⟨by decide, by decide⟩, ?_, ?_⟩ <;>
    simp [apply_flat_dark_correction, series_c9, flat_c9, dark_c9]

/-- C9 (amended): only the flat reference's shape is checked. A flat whose
`(height, width)` disagrees with the series makes the correction fail with
the shape error and leaves the series buffer unchanged. With a matching
flat the dark's shape is never compared against the series: when each dark
axis equals the series extent or is 1 (numpy broadcasting — e.g. the 1×1
dark of the counterexample), the correction proceeds to completion over
every frame with the dark broadcast along its size-1 axes; for any other
dark shape an uncaught numpy `ValueError` aborts the correction — not the
ShapeMismatch result — still before any frame is written, so the buffer is
also unchanged there. -/
theorem flat_shape_guard (series : Series) (fl dk : Img2) :
    (fl.h ≠ series.h ∨ fl.w ≠ series.w →
      apply_flat_dark_correction series (some fl) (some dk)
        = ⟨series, .mustCorrectBeforeCropping⟩)
    ∧ (fl.h = series.h ∧ fl.w = series.w →
        ((dk.h = series.h ∨ dk.h = 1) ∧ (dk.w = series.w ∨ dk.w = 1) →
          apply_flat_dark_correction series (some fl) (some dk)
            = ⟨⟨series.h, series.w, series.frames.map (flat_dark_correct_frame fl dk)⟩,
                .completed⟩)
        ∧ (¬((dk.h = series.h ∨ dk.h = 1) ∧ (dk.w = series.w ∨ dk.w = 1)) →
          apply_flat_dark_correction series (some fl) (some dk)
            = ⟨series, .valueError⟩)) := by
  constructor
  · intro h
    simp only [apply_flat_dark_correction]
    rw [if_pos h]
  · intro h
    constructor
    · intro hb
      simp only [apply_flat_dark_correction]
      rw [if_neg (by tauto), if_pos hb]
    · intro hb
      simp only [apply_flat_dark_correction]
      rw [if_neg (by tauto), if_neg hb]

/-- Witness for C9: a 3×2 flat on a 2×2 series aborts with the shape error
and the buffer is returned unchanged; the matching flat of `series_c9`
completes with the broadcastable 1×1 dark, and aborts with the uncaught
`ValueError` for a non-broadcastable 3×2 dark. -/
theorem flat_shape_guard_witness :
    ((3 : ℕ) ≠ 2 ∨ (2 : ℕ) ≠ 2)
    ∧ apply_flat_dark_correction series_c9 (some ⟨3, 2, fun _ _ => 2⟩) (some dark_c9)
        = ⟨series_c9, .mustCorrectBeforeCropping⟩
    ∧ ((2 : ℕ) = 2 ∧ (2 : ℕ) = 2)
    ∧ (((1 : ℕ) = 2 ∨ (1 : ℕ) = 1) ∧ ((1 : ℕ) = 2 ∨ (1 : ℕ) = 1))
    ∧ apply_flat_dark_correction series_c9 (some flat_c9) (some dark_c9)
        = ⟨⟨series_c9.h, series_c9.w,
            series_c9.frames.map (flat_dark_correct_frame flat_c9 dark_c9)⟩, .completed⟩
    ∧ ¬(((3 : ℕ) = 2 ∨ (3 : ℕ) = 1) ∧ ((2 : ℕ) = 2 ∨ (2 : ℕ) = 1))
    ∧ apply_flat_dark_correction series_c9 (some flat_c9) (some ⟨3, 2, fun _ _ => 0⟩)
        = ⟨series_c9, .valueError⟩ :=
  ⟨Or.inl (by decide),
    (flat_shape_guard series_c9 ⟨3, 2, fun _ _ => 2⟩ dark_c9).1 (Or.inl (by decide)),
    ⟨rfl, rfl⟩,
    ⟨Or.inr rfl, Or.inr rfl⟩,
    ((flat_shape_guard series_c9 flat_c9 dark_c9).2 ⟨rfl, rfl⟩).1
      ⟨Or.inr rfl, Or.inr rfl⟩,
    by decide,
    ((flat_shape_guard series_c9 flat_c9 ⟨3, 2, fun _ _ => 0⟩).2 ⟨rfl, rfl⟩).2
      (by decide)⟩

/-! ## Frame-pipeline buffer effects (src/gui/sips_gui.py, lines 850-902)

To settle the frame-effect claim a heap of numpy buffers is modelled
explicitly: each allocated array is a buffer (`Buf`, its contents indexed
frame/row/column — a 2D array simply ignores the frame axis), an array
object is an index into the heap, and a numpy slice such as
`displayed_array[:, :, i]` is a view that aliases its buffer. `np.copy` and
every arithmetic operation allocate a fresh buffer; the in-place pixel
assignments of `clip_image` write through the id they are handed. -/

/-- Contents of a 2D frame. -/
abbrev Image := ℕ → ℕ → ℚ

/-- Contents of one allocated buffer, indexed (frame, row, column). -/
abbrev Buf := ℕ → Image

/-- The allocated numpy buffers; array objects are indices into `bufs`. -/
structure Heap where
  bufs : List Buf

/-- Dereference a buffer id. -/
def Heap.read (h : Heap) (id : ℕ) : Buf := h.bufs.getD id (fun _ _ _ => 0)

/-- The 2D view of frame `k` of buffer `id` (`arr[:, :, k]`). -/
def Heap.frame (h : Heap) (id k : ℕ) : Image := h.read id k

/-- Allocate a fresh buffer, returning its id. -/
def Heap.alloc (h : Heap) (b : Buf) : Heap × ℕ := (⟨h.bufs ++ [b]⟩, h.bufs.length)

/-- Overwrite the contents of an existing buffer in place. -/
def Heap.write (h : Heap) (id : ℕ) (b : Buf) : Heap := ⟨h.bufs.set id b⟩

/-- A 2D buffer holding `img` (constant over the unused frame axis). -/
def const2 (img : Image) : Buf := fun _ => img

/-- `apply_pre_processing` (lines 876-902) over the buffer heap: `arr` is the
id of `displayed_array`; every branch takes `np.copy` of the frames it
reads and the arithmetic allocates the result, whose id is returned. -/
def apply_pre_processing_heap (h : Heap) (arr : ℕ) (mode : ℤ) (order cur : ℕ)
    (d q : ℚ) : Heap × ℕ :=
  if mode = 1 then
    let s1 := h.alloc (const2 (h.frame arr cur))
    let s2 := s1.1.alloc (const2 (s1.1.frame arr 0))
    s2.1.alloc (const2 (fun r c => s2.1.frame s1.2 0 r c - s2.1.frame s2.2 0 r c))
  else if mode = 2 then
    let s1 := h.alloc (const2 (h.frame arr (cur + order)))
    let s2 := s1.1.alloc (const2 (s1.1.frame arr cur))
    s2.1.alloc (const2 (fun r c => s2.1.frame s1.2 0 r c - s2.1.frame s2.2 0 r c))
  else if mode = 3 then
    let s1 := h.alloc (const2 (h.frame arr cur))
    let s2 := s1.1.alloc (const2 (s1.1.frame arr 0))
    s2.1.alloc (const2 (fun r c => ratio_pixel (s2.1.frame s1.2 0 r c) (s2.1.frame s2.2 0 r c)))
  else if mode = 4 then
    let s1 := h.alloc (const2 (h.frame arr (cur + order)))
    let s2 := s1.1.alloc (const2 (s1.1.frame arr cur))
    s2.1.alloc (const2 (fun r c => ratio_pixel (s2.1.frame s1.2 0 r c) (s2.1.frame s2.2 0 r c)))
  else if mode = 5 then
    let s1 := h.alloc (fun k => h.frame arr (cur + k))
    s1.1.alloc (const2 (fun r c =>
      nielsen_linear_comb (fun n => s1.1.frame s1.2 n r c) 0 order d q))
  else
    h.alloc (const2 (h.frame arr cur))

/-- The enhancement-chain switches and view factors of `recalculate_image`. -/
structure EnhanceConfig where
  clipping_check : Bool
  gaussian_check : Bool
  nlmeans_check : Bool
  clahe_check : Bool
  resize_value : ℚ
  zoom_value : ℚ

/-- The pixel transform of `clip_image` (lines 259-261 of
series_handling_functions.py): `image[image <= clip_min] = clip_min` then
`image[image >= clip_max] = clip_max`, with the percentile pair computed by
the (external) `np.percentile` from the image's distribution. -/
def clip_transform (percentiles : Image → ℚ × ℚ) (img : Image) : Image :=
  fun r c =>
    let p := percentiles img
    let y := if img r c ≤ p.1 then p.1 else img r c
    if y ≥ p.2 then p.2 else y

/-- `clip_image` mutates its argument in place and returns the same array. -/
def clip_stage (enabled : Bool) (percentiles : Image → ℚ × ℚ) (s : Heap × ℕ) : Heap × ℕ :=
  if enabled then (s.1.write s.2 (const2 (clip_transform percentiles (s.1.frame s.2 0))), s.2)
  else s

/-- A stage whose library call (gaussian / conversion / denoise / CLAHE /
resize / zoom) returns a freshly allocated array from the current one. -/
def alloc_stage (enabled : Bool) (f : Image → Image) (s : Heap × ℕ) : Heap × ℕ :=
  if enabled then s.1.alloc (const2 (f (s.1.frame s.2 0)))
  else s

/-- `recalculate_image` (lines 850-874): the mode-selection result is clipped
in place when enabled, then each enabled stage replaces the working array
with a fresh one, in the fixed order gaussian → (convert, denoise) →
(convert unless already converted, CLAHE) → resize → zoom. The pixel
semantics of the external library calls are the parameter functions. -/
def recalculate_image_heap (h : Heap) (arr : ℕ) (mode : ℤ) (order cur : ℕ) (d q : ℚ)
    (cfg : EnhanceConfig) (percentiles : Image → ℚ × ℚ)
    (gaussF convF nlmF claheF resizeF zoomF : Image → Image) : Heap × ℕ :=
  alloc_stage (decide (cfg.zoom_value ≠ 1)) zoomF
    (alloc_stage (decide (cfg.resize_value ≠ 1)) resizeF
      (alloc_stage cfg.clahe_check claheF
        (alloc_stage (cfg.clahe_check && !cfg.nlmeans_check) convF
          (alloc_stage cfg.nlmeans_check nlmF
            (alloc_stage cfg.nlmeans_check convF
              (alloc_stage cfg.gaussian_check gaussF
                (clip_stage cfg.clipping_check percentiles
                  (apply_pre_processing_heap h arr mode order cur d q))))))))

theorem Heap.alloc_length (h : Heap) (b : Buf) :
    (h.alloc b).1.bufs.length = h.bufs.length + 1 := by
  simp [Heap.alloc]

theorem Heap.read_alloc (h : Heap) (b : Buf) {j : ℕ} (hj : j < h.bufs.length) :
    (h.alloc b).1.read j = h.read j := by
  unfold Heap.read Heap.alloc
  dsimp only
  rw [List.getD_append _ _ _ _ hj]

theorem Heap.read_write_ne (h : Heap) (id : ℕ) (b : Buf) {j : ℕ} (hj : j ≠ id) :
    (h.write id b).read j = h.read j := by
  unfold Heap.read Heap.write
  dsimp only
  rw [List.getD_eq_getD_get?, List.getD_eq_getD_get?, List.get?_eq_getElem?,
    List.get?_eq_getElem?, List.getElem?_set_ne (by omega)]

/-- The working-array id is fresh relative to the first `n` buffers. -/
def FreshAbove (n : ℕ) (s : Heap × ℕ) : Prop :=
  n ≤ s.1.bufs.length ∧ n ≤ s.2

theorem alloc_stage_inv (e : Bool) (f : Image → Image) {n : ℕ} {s : Heap × ℕ}
    (hs : FreshAbove n s) :
    FreshAbove n (alloc_stage e f s)
    ∧ ∀ j < n, (alloc_stage e f s).1.read j = s.1.read j := by
  unfold alloc_stage
  cases e
  · rw [if_neg (by decide)]
    exact ⟨hs, fun j _ => rfl⟩
  · rw [if_pos (by decide)]
    refine ⟨⟨?_, ?_⟩, ?_⟩
    · rw [Heap.alloc_length]; exact Nat.le_succ_of_le hs.1
    · exact hs.1
    · intro j hj
      exact Heap.read_alloc _ _ (Nat.lt_of_lt_of_le hj hs.1)

theorem clip_stage_inv (e : Bool) (p : Image → ℚ × ℚ) {n : ℕ} {s : Heap × ℕ}
    (hs : FreshAbove n s) :
    FreshAbove n (clip_stage e p s)
    ∧ ∀ j < n, (clip_stage e p s).1.read j = s.1.read j := by
  unfold clip_stage
  cases e
  · rw [if_neg (by decide)]
    exact ⟨hs, fun j _ => rfl⟩
  · rw [if_pos (by decide)]
    refine ⟨⟨?_, hs.2⟩, ?_⟩
    · show n ≤ (s.1.bufs.set s.2 _).length
      rw [List.length_set]; exact hs.1
    · intro j hj
      exact Heap.read_write_ne _ _ _ (by have := hs.2; omega)

theorem apply_pre_processing_heap_inv (h : Heap) (arr : ℕ) (mode : ℤ) (order cur : ℕ)
    (d q : ℚ) :
    FreshAbove h.bufs.length (apply_pre_processing_heap h arr mode order cur d q)
    ∧ ∀ j < h.bufs.length,
        (apply_pre_processing_heap h arr mode order cur d q).1.read j = h.read j := by
  unfold apply_pre_processing_heap
  split_ifs
  case _ =>
    refine ⟨⟨?_, ?_⟩, fun j hj => ?_⟩
    · simp [Heap.alloc]
    · simp [Heap.alloc]
    · rw [Heap.read_alloc _ _ (by simp [Heap.alloc]; omega),
        Heap.read_alloc _ _ (by simp [Heap.alloc]; omega), Heap.read_alloc _ _ hj]
  case _ =>
    refine ⟨⟨?_, ?_⟩, fun j hj => ?_⟩
    · simp [Heap.alloc]
    · simp [Heap.alloc]
    · rw [Heap.read_alloc _ _ (by simp [Heap.alloc]; omega),
        Heap.read_alloc _ _ (by simp [Heap.alloc]; omega), Heap.read_alloc _ _ hj]
  case _ =>
    refine ⟨⟨?_, ?_⟩, fun j hj => ?_⟩
    · simp [Heap.alloc]
    · simp [Heap.alloc]
    · rw [Heap.read_alloc _ _ (by simp [Heap.alloc]; omega),
        Heap.read_alloc _ _ (by simp [Heap.alloc]; omega), Heap.read_alloc _ _ hj]
  case _ =>
    refine ⟨⟨?_, ?_⟩, fun j hj => ?_⟩
    · simp [Heap.alloc]
    · simp [Heap.alloc]
    · rw [Heap.read_alloc _ _ (by simp [Heap.alloc]; omega),
        Heap.read_alloc _ _ (by simp [Heap.alloc]; omega), Heap.read_alloc _ _ hj]
  case _ =>
    refine ⟨⟨?_, ?_⟩, fun j hj => ?_⟩
    · simp [Heap.alloc]
    · simp [Heap.alloc]
    · rw [Heap.read_alloc _ _ (by simp [Heap.alloc]; omega), Heap.read_alloc _ _ hj]
  case _ =>
    refine ⟨⟨?_, ?_⟩, fun j hj => ?_⟩
    · simp [Heap.alloc]
    · simp [Heap.alloc]
    · rw [Heap.read_alloc _ _ hj]

/-- C10: evaluating the frame pipeline (mode selection, then the enhancement
chain including the in-place clip, then resize/zoom) leaves every buffer
that existed before the call — in particular the `displayed_array` series
buffer — bit-for-bit unchanged: every mode hands only `np.copy`-fresh
buffers to the chain, so the in-place stages write only to per-call copies. -/
theorem frame_pipeline_preserves_series (h : Heap) (arr : ℕ) (mode : ℤ)
    (order cur : ℕ) (d q : ℚ) (cfg : EnhanceConfig) (percentiles : Image → ℚ × ℚ)
    (gaussF convF nlmF claheF resizeF zoomF : Image → Image) :
    ∀ j < h.bufs.length,
      (recalculate_image_heap h arr mode order cur d q cfg percentiles
        gaussF convF nlmF claheF resizeF zoomF).1.read j = h.read j := by
  intro j hj
  unfold recalculate_image_heap
  have h0 := apply_pre_processing_heap_inv h arr mode order cur d q
  have h1 := clip_stage_inv cfg.clipping_check percentiles h0.1
  have h2 := alloc_stage_inv cfg.gaussian_check gaussF h1.1
  have h3 := alloc_stage_inv cfg.nlmeans_check convF h2.1
  have h4 := alloc_stage_inv cfg.nlmeans_check nlmF h3.1
  have h5 := alloc_stage_inv (cfg.clahe_check && !cfg.nlmeans_check) convF h4.1
  have h6 := alloc_stage_inv cfg.clahe_check claheF h5.1
  have h7 := alloc_stage_inv (decide (cfg.resize_value ≠ 1)) resizeF h6.1
  have h8 := alloc_stage_inv (decide (cfg.zoom_value ≠ 1)) zoomF h7.1
  rw [h8.2 j hj, h7.2 j hj, h6.2 j hj, h5.2 j hj, h4.2 j hj, h3.2 j hj, h2.2 j hj,
    h1.2 j hj, h0.2 j hj]

/-- A one-buffer heap holding a constant series. -/
def heap_w : Heap := ⟨[fun _ _ _ => 7]⟩

/-- Full-chain configuration with every enhancement stage enabled. -/
def cfg_w : EnhanceConfig := ⟨true, true, true, true, 2, 2⟩

/-- Witness for C10: running the full pipeline (DeltaNeighbour mode, every
stage enabled, resize and zoom active) on a concrete one-buffer heap leaves
the series buffer unchanged. -/
theorem frame_pipeline_preserves_series_witness :
    0 < heap_w.bufs.length
    ∧ (recalculate_image_heap heap_w 0 2 1 0 1 1 cfg_w (fun _ => (0, 255))
        id id id id id id).1.read 0 = heap_w.read 0 :=
  ⟨by decide,
    frame_pipeline_preserves_series heap_w 0 2 1 0 1 1 cfg_w (fun _ => (0, 255))
      id id id id id id 0 (by decide)⟩

end SIPS
